import Mathlib

/-!
Shallow embedding of the parts of the COMPAS repository that the
specification's claims are about:

* `compas/scene/object.py` — the `BaseObject` scene-object class with its
  process-wide item-type → object-type registry (`_ITEM_OBJECT`,
  `BaseObject.register`, `BaseObject.build`) and the `name` property that
  aliases the wrapped item's name.
* `compas/geometry/bbox/bbox.py` — `bounding_box` and `bounding_box_xy`.
* `compas/colors/color.py` — the `Color` data class: the `data` /
  `from_data` serialization pair, `__len__` / `__iter__` / `__eq__`, and
  the mutating methods `lighten`, `darken`, `desaturate` together with the
  `colorsys` HLS conversions they call.
* `compas_rhino/objects/_shapeobject.py` — the `ShapeObject` class with its
  pending-transform deque, `update` and `synchronize`.

Python floats are embedded as exact rationals (`ℚ`); Python exceptions are
embedded as `Except` / explicit error components; mutation is embedded as
explicit state passing.
-/

namespace Compas

/-! ### compas/scene/object.py

`_ITEM_OBJECT` is a module-level `dict` keyed by the (exact) runtime type of
an item.  Python types are embedded as `PyType` values carrying an identity
and, to be able to talk about subclassing, an optional parent type identity;
dict lookup uses type identity only.  The dict itself is embedded as a
function `PyType → Option Nat` (the value is the registered object type,
identified by a `Nat` tag), with `register` overwriting the entry for its
key, exactly as Python dict assignment does. -/

structure PyType where
  id : Nat
  parentId : Option Nat
deriving DecidableEq, Repr

/-- The runtime subclass relation used only to *state* claims about
dispatch: `t` is a strict subclass of `s` when `t`'s parent is `s`. -/
def PyType.isChildOf (t s : PyType) : Prop := t.parentId = some s.id

/-- The state of the module-level dict `_ITEM_OBJECT`. -/
def Registry : Type := PyType → Option Nat

/-- The dict at module load: empty. -/
def emptyRegistry : Registry := fun _ => none

/-- `BaseObject.register(item_type, object_type)`:
`_ITEM_OBJECT[item_type] = object_type`. -/
def register (reg : Registry) (item_type : PyType) (object_type : Nat) : Registry :=
  fun t => if t = item_type then some object_type else reg t

/-- A COMPAS item as seen by the scene layer: it has an exact runtime type,
a (settable, possibly `None`) `name` attribute and some payload identifying
the rest of its state. -/
structure SceneItem where
  ty : PyType
  name : Option String
  payload : Nat
deriving DecidableEq, Repr

/-- Keyword arguments forwarded by `BaseObject.build`. -/
abbrev Kwargs : Type := List (String × Nat)

/-- The object produced by `object_type(item, **kwargs)`: an instance of the
handler type `object_type` wrapping `item` (stored by `BaseObject.__init__`
as `self.item = item`), with the keyword arguments it was given. -/
structure BuiltObject where
  object_type : Nat
  item : SceneItem
  kwargs : Kwargs
deriving DecidableEq, Repr

/-- `BaseObject.build(item, **kwargs)`:
`object_type = _ITEM_OBJECT[type(item)]; return object_type(item, **kwargs)`.
The dict lookup is by the exact runtime type; a missing key is a `KeyError`,
embedded as `none`. -/
def build (reg : Registry) (item : SceneItem) (kwargs : Kwargs) : Option BuiltObject :=
  (reg item.ty).map fun object_type => ⟨object_type, item, kwargs⟩

/-- The instance state of a `BaseObject`: the wrapped item, the scene and
the visibility flag (the lazily created `_artist` and `_uuid` play no role
in the claims and are omitted; they are independent fields). -/
structure BaseObjectState where
  item : SceneItem
  scene : Option Nat
  visible : Bool
deriving DecidableEq, Repr

/-- The `name` property getter: `return self.item.name`. -/
def BaseObjectState.name (o : BaseObjectState) : Option String := o.item.name

/-- The `name` property setter: `self.item.name = name`. -/
def BaseObjectState.setName (o : BaseObjectState) (n : Option String) : BaseObjectState :=
  { o with item := { o.item with name := n } }

/-! ### compas/colors/color.py

`Color` stores `r`, `g`, `b`, `a` as set by `__init__`.  The `colorsys`
HLS conversions it uses (`rgb_to_hls`, `hls_to_rgb`) are embedded over `ℚ`,
with Python's `%ized` float modulus `h % 1.0` embedded as `Int.fract`. -/

structure Color where
  r : ℚ
  g : ℚ
  b : ℚ
  a : ℚ
deriving DecidableEq, Repr

/-- The dict returned by the `data` property. -/
structure ColorData where
  red : ℚ
  green : ℚ
  blue : ℚ
  alpha : ℚ
deriving DecidableEq, Repr

/-- `Color.data`: `{'red': self.r, 'green': self.g, 'blue': self.b,
'alpha': self.a}`. -/
def Color.data (c : Color) : ColorData := ⟨c.r, c.g, c.b, c.a⟩

/-- `Color.from_data(data)`:
`cls(data['red'], data['green'], data['blue'], data['alpha'])`. -/
def Color.from_data (d : ColorData) : Color := ⟨d.red, d.green, d.blue, d.alpha⟩

/-- `Color.rgb`: the tuple `(self.r, self.g, self.b)`. -/
def Color.rgb (c : Color) : ℚ × ℚ × ℚ := (c.r, c.g, c.b)

/-- `Color.__len__`: `return 3`. -/
def Color.len (_ : Color) : Nat := 3

/-- `Color.__iter__`: `return iter(self.rgb)` — iteration yields exactly
the three RGB components, never alpha. -/
def Color.toList (c : Color) : List ℚ := [c.r, c.g, c.b]

/-- `Color.__eq__`:
`all(a == b for a, b in zip(self, other))`, where both sides iterate via
`__iter__`. -/
def Color.eq (c other : Color) : Bool :=
  (c.toList.zip other.toList).all fun p => p.1 == p.2

/-- `colorsys.ONE_THIRD`. -/
def ONE_THIRD : ℚ := 1 / 3

/-- `colorsys.ONE_SIXTH`. -/
def ONE_SIXTH : ℚ := 1 / 6

/-- `colorsys.TWO_THIRD`. -/
def TWO_THIRD : ℚ := 2 / 3

/-- Python's `x % 1.0` on a (finite) float, exactly: the fractional part. -/
def fmod1 (x : ℚ) : ℚ := Int.fract x

/-- `colorsys.rgb_to_hls(r, g, b)`. -/
def rgb_to_hls (r g b : ℚ) : ℚ × ℚ × ℚ :=
  let maxc := max r (max g b)
  let minc := min r (min g b)
  let l := (minc + maxc) / 2
  if minc = maxc then (0, l, 0)
  else
    let s := if l ≤ 1 / 2 then (maxc - minc) / (maxc + minc)
             else (maxc - minc) / (2 - maxc - minc)
    let rc := (maxc - r) / (maxc - minc)
    let gc := (maxc - g) / (maxc - minc)
    let bc := (maxc - b) / (maxc - minc)
    let h := if r = maxc then bc - gc
             else if g = maxc then 2 + rc - bc
             else 4 + gc - rc
    (fmod1 (h / 6), l, s)

/-- `colorsys._v(m1, m2, hue)`. -/
def hls_v (m1 m2 hue : ℚ) : ℚ :=
  let hue := fmod1 hue
  if hue < ONE_SIXTH then m1 + (m2 - m1) * hue * 6
  else if hue < 1 / 2 then m2
  else if hue < TWO_THIRD then m1 + (m2 - m1) * (TWO_THIRD - hue) * 6
  else m1

/-- `colorsys.hls_to_rgb(h, l, s)`. -/
def hls_to_rgb (h l s : ℚ) : ℚ × ℚ × ℚ :=
  if s = 0 then (l, l, l)
  else
    let m2 := if l ≤ 1 / 2 then l * (1 + s) else l + s - l * s
    let m1 := 2 * l - m2
    (hls_v m1 m2 (h + ONE_THIRD), hls_v m1 m2 h, hls_v m1 m2 (h - ONE_THIRD))

/-- `Color.hls`: `colorsys.rgb_to_hls(*self.rgb)`. -/
def Color.hls (c : Color) : ℚ × ℚ × ℚ := rgb_to_hls c.r c.g c.b

/-- `Color.lighten(factor)`.  The method mutates `self`; it is embedded as
returning the raised exception (if any) together with the state of the
color afterwards.  The range check precedes any mutation, so on a raise the
returned state is the input unchanged. -/
def Color.lighten (c : Color) (factor : ℚ) : Option String × Color :=
  if factor > 100 ∨ factor < 0 then
    (some "Percentage of increased lightness should be in the range 0-100.", c)
  else
    let f := 1 + factor / 100
    let hls := rgb_to_hls c.r c.g c.b
    let rgb := hls_to_rgb hls.1 (min 1 (hls.2.1 * f)) hls.2.2
    (none, { c with r := rgb.1, g := rgb.2.1, b := rgb.2.2 })

/-- `Color.darken(factor)`, embedded like `Color.lighten`. -/
def Color.darken (c : Color) (factor : ℚ) : Option String × Color :=
  if factor > 100 ∨ factor < 0 then
    (some "Percentage of reduced lightness should be in the range 0-100.", c)
  else
    let f := 1 - factor / 100
    let hls := rgb_to_hls c.r c.g c.b
    let rgb := hls_to_rgb hls.1 (max 0 (hls.2.1 * f)) hls.2.2
    (none, { c with r := rgb.1, g := rgb.2.1, b := rgb.2.2 })

/-- `Color.desaturate(factor)`, embedded like `Color.lighten`. -/
def Color.desaturate (c : Color) (factor : ℚ) : Option String × Color :=
  if factor > 100 ∨ factor < 0 then
    (some "Percentage of desaturation should be in the range 0-100.", c)
  else
    let f := 1 - factor / 100
    let hls := rgb_to_hls c.r c.g c.b
    let rgb := hls_to_rgb hls.1 hls.2.1 (max 0 (hls.2.2 * f))
    (none, { c with r := rgb.1, g := rgb.2.1, b := rgb.2.2 })

/-! ### compas/geometry/bbox/bbox.py

Points are embedded as rational triples.  Python's `min(xs)` / `max(xs)` on
the non-empty coordinate tuples produced by `zip(*points)` are embedded as
left folds of `min` / `max` over the tail, started at the head; on an empty
input `zip(*points)` yields nothing and the destructuring assignment
raises, embedded as `none`. -/

abbrev Point3 : Type := ℚ × ℚ × ℚ

/-- `min(f(points))`: the minimum of a coordinate over a non-empty list,
written head/tail. -/
def coordMin (f : Point3 → ℚ) (p : Point3) (ps : List Point3) : ℚ :=
  ps.foldl (fun a q => min a (f q)) (f p)

/-- `max(f(points))`: the maximum of a coordinate over a non-empty list,
written head/tail. -/
def coordMax (f : Point3 → ℚ) (p : Point3) (ps : List Point3) : ℚ :=
  ps.foldl (fun a q => max a (f q)) (f p)

/-- `bounding_box(points)`: the 8 corners of the axis-aligned box of a list
of XYZ points, in the order written in the source.  An empty input raises
(embedded as `none`). -/
def bounding_box : List Point3 → Option (List Point3)
  | [] => none
  | p :: ps =>
    let min_x := coordMin (fun q => q.1) p ps
    let max_x := coordMax (fun q => q.1) p ps
    let min_y := coordMin (fun q => q.2.1) p ps
    let max_y := coordMax (fun q => q.2.1) p ps
    let min_z := coordMin (fun q => q.2.2) p ps
    let max_z := coordMax (fun q => q.2.2) p ps
    some [(min_x, min_y, min_z),
          (max_x, min_y, min_z),
          (max_x, max_y, min_z),
          (min_x, max_y, min_z),
          (min_x, min_y, max_z),
          (max_x, min_y, max_z),
          (max_x, max_y, max_z),
          (min_x, max_y, max_z)]

/-- `bounding_box_xy(points)`: the 4 corners of the axis-aligned rectangle
of the XY projections of the points, each with third coordinate `0.0`; the
Z components of the input are ignored (`islice(zip(*points), 2)`). -/
def bounding_box_xy : List Point3 → Option (List Point3)
  | [] => none
  | p :: ps =>
    let min_x := coordMin (fun q => q.1) p ps
    let max_x := coordMax (fun q => q.1) p ps
    let min_y := coordMin (fun q => q.2.1) p ps
    let max_y := coordMax (fun q => q.2.1) p ps
    some [(min_x, min_y, 0),
          (max_x, min_y, 0),
          (max_x, max_y, 0),
          (min_x, max_y, 0)]

/-! ### compas_rhino/objects/_shapeobject.py

`Rhino.Geometry.Transform` values are embedded as 4×4 rational matrices
given as functions `Fin 4 → Fin 4 → ℚ`, with `Transform.Multiply` the usual
matrix product.  The geometry held by the Rhino document for the object and
the wrapped COMPAS shape are both embedded as lists of homogeneous points,
transformed by matrix application; `sc.doc.Objects.Find` / `CommitChanges`
are the identity on that embedded document geometry.  The pending-transform
container `self._stack` starts as a `collections.deque` and is replaced by
a plain `list` in `synchronize`; only a deque has `appendleft`, so the
container kind is part of the state (`stackIsDeque`), and calling
`appendleft` on the list raises `AttributeError`.  `reduce` without an
initial value raises `TypeError` on an empty sequence.  Exceptions are
embedded as `Except`. -/

abbrev Xform : Type := Fin 4 → Fin 4 → ℚ

/-- `Rhino.Geometry.Transform.Multiply` (matrix product), written with the
four explicit products per entry. -/
def xmul (A B : Xform) : Xform := fun i j =>
  A i 0 * B 0 j + A i 1 * B 1 j + A i 2 * B 2 j + A i 3 * B 3 j

/-- Application of a transform to a homogeneous point. -/
def xapply (A : Xform) (p : Fin 4 → ℚ) : Fin 4 → ℚ := fun i =>
  A i 0 * p 0 + A i 1 * p 1 + A i 2 * p 2 + A i 3 * p 3

/-- The state of a `ShapeObject`: the pending `matrix` (`None` until set),
the pending-transform container with its kind, the geometry the Rhino
document holds for this object, and the wrapped COMPAS shape. -/
structure ShapeObjectState where
  matrix : Option Xform
  stackIsDeque : Bool
  stack : List Xform
  hostGeom : List (Fin 4 → ℚ)
  shape : List (Fin 4 → ℚ)

/-- The state right after `ShapeObject.__init__`: `self._matrix = None`,
`self._stack = deque()`. -/
def ShapeObjectState.init (shape hostGeom : List (Fin 4 → ℚ)) : ShapeObjectState :=
  { matrix := none, stackIsDeque := true, stack := [], hostGeom := hostGeom, shape := shape }

/-- `ShapeObject.update()`: if `self.matrix` is set, push it with
`self._stack.appendleft(self.matrix)` (an `AttributeError` if the container
has become a plain list) and transform the document geometry by it;
otherwise do nothing. -/
def ShapeObjectState.update (s : ShapeObjectState) : Except String ShapeObjectState :=
  match s.matrix with
  | none => .ok s
  | some M =>
    if s.stackIsDeque then
      .ok { s with stack := M :: s.stack, hostGeom := s.hostGeom.map (xapply M) }
    else
      .error "AttributeError: list object has no attribute appendleft"

/-- `ShapeObject.synchronize()`: `T = reduce(Transform.Multiply, self._stack)`
(a `TypeError` on an empty stack), copy `T` entrywise into a
`Transformation`, apply it to the wrapped shape, and replace the stack by
the plain list `[]`. -/
def ShapeObjectState.synchronize (s : ShapeObjectState) : Except String ShapeObjectState :=
  match s.stack with
  | [] => .error "TypeError: reduce of empty sequence with no initial value"
  | T0 :: rest =>
    let T := rest.foldl xmul T0
    .ok { s with shape := s.shape.map (xapply T), stack := [], stackIsDeque := false }

/-! ### Helper lemmas about `min` / `max` left folds -/

theorem foldl_min_le_init (a : ℚ) (l : List ℚ) : l.foldl min a ≤ a := by
  induction l generalizing a with
  | nil => exact le_refl a
  | cons x xs ih => exact le_trans (ih (min a x)) (min_le_left a x)

theorem foldl_min_le_mem (a : ℚ) (l : List ℚ) : ∀ x ∈ l, l.foldl min a ≤ x := by
  induction l generalizing a with
  | nil => intro x hx; cases hx
  | cons y ys ih =>
    intro x hx
    rcases List.mem_cons.mp hx with h | h
    · subst h; exact le_trans (foldl_min_le_init (min a x) ys) (min_le_right a x)
    · exact ih (min a y) x h

theorem foldl_min_attained (a : ℚ) (l : List ℚ) : l.foldl min a = a ∨ l.foldl min a ∈ l := by
  induction l generalizing a with
  | nil => exact Or.inl rfl
  | cons y ys ih =>
    rcases ih (min a y) with h | h
    · by_cases hay : a ≤ y
      · exact Or.inl (h.trans (min_eq_left hay))
      · exact Or.inr (List.mem_cons.mpr (Or.inl (h.trans (min_eq_right (le_of_not_le hay)))))
    · exact Or.inr (List.mem_cons_of_mem y h)

theorem init_le_foldl_max (a : ℚ) (l : List ℚ) : a ≤ l.foldl max a := by
  induction l generalizing a with
  | nil => exact le_refl a
  | cons x xs ih => exact le_trans (le_max_left a x) (ih (max a x))

theorem mem_le_foldl_max (a : ℚ) (l : List ℚ) : ∀ x ∈ l, x ≤ l.foldl max a := by
  induction l generalizing a with
  | nil => intro x hx; cases hx
  | cons y ys ih =>
    intro x hx
    rcases List.mem_cons.mp hx with h | h
    · subst h; exact le_trans (le_max_right a x) (init_le_foldl_max (max a x) ys)
    · exact ih (max a y) x h

theorem foldl_max_attained (a : ℚ) (l : List ℚ) : l.foldl max a = a ∨ l.foldl max a ∈ l := by
  induction l generalizing a with
  | nil => exact Or.inl rfl
  | cons y ys ih =>
    rcases ih (max a y) with h | h
    · by_cases hay : y ≤ a
      · exact Or.inl (h.trans (max_eq_left hay))
      · exact Or.inr (List.mem_cons.mpr (Or.inl (h.trans (max_eq_right (le_of_not_le hay)))))
    · exact Or.inr (List.mem_cons_of_mem y h)

theorem coordMin_eq_foldl_map (f : Point3 → ℚ) (p : Point3) (ps : List Point3) :
    coordMin f p ps = (ps.map f).foldl min (f p) := by
  simp [coordMin, List.foldl_map]

theorem coordMax_eq_foldl_map (f : Point3 → ℚ) (p : Point3) (ps : List Point3) :
    coordMax f p ps = (ps.map f).foldl max (f p) := by
  simp [coordMax, List.foldl_map]

theorem coordMin_le (f : Point3 → ℚ) (p : Point3) (ps : List Point3) :
    ∀ q ∈ p :: ps, coordMin f p ps ≤ f q := by
  intro q hq
  rw [coordMin_eq_foldl_map]
  rcases List.mem_cons.mp hq with h | h
  · subst h; exact foldl_min_le_init _ _
  · exact foldl_min_le_mem _ _ (f q) (List.mem_map_of_mem f h)

theorem le_coordMax (f : Point3 → ℚ) (p : Point3) (ps : List Point3) :
    ∀ q ∈ p :: ps, f q ≤ coordMax f p ps := by
  intro q hq
  rw [coordMax_eq_foldl_map]
  rcases List.mem_cons.mp hq with h | h
  · subst h; exact init_le_foldl_max _ _
  · exact mem_le_foldl_max _ _ (f q) (List.mem_map_of_mem f h)

theorem coordMin_attained (f : Point3 → ℚ) (p : Point3) (ps : List Point3) :
    ∃ q ∈ p :: ps, coordMin f p ps = f q := by
  rcases foldl_min_attained (f p) (ps.map f) with h | h
  · exact ⟨p, List.mem_cons_self p ps, (coordMin_eq_foldl_map f p ps).trans h⟩
  · rcases List.mem_map.mp h with ⟨q, hq, hfq⟩
    exact ⟨q, List.mem_cons_of_mem p hq, (coordMin_eq_foldl_map f p ps).trans hfq.symm⟩

theorem coordMax_attained (f : Point3 → ℚ) (p : Point3) (ps : List Point3) :
    ∃ q ∈ p :: ps, coordMax f p ps = f q := by
  rcases foldl_max_attained (f p) (ps.map f) with h | h
  · exact ⟨p, List.mem_cons_self p ps, (coordMax_eq_foldl_map f p ps).trans h⟩
  · rcases List.mem_map.mp h with ⟨q, hq, hfq⟩
    exact ⟨q, List.mem_cons_of_mem p hq, (coordMax_eq_foldl_map f p ps).trans hfq.symm⟩

/-- The XY projection of a point, used to state that `bounding_box_xy`
depends only on the XY components of its input. -/
def pxy (q : Point3) : ℚ × ℚ := (q.1, q.2.1)

theorem coordMin_congr_xy (f : Point3 → ℚ) (g : ℚ × ℚ → ℚ)
    (hfg : ∀ q, f q = g (pxy q)) (p1 p2 : Point3) (ps1 ps2 : List Point3)
    (hp : pxy p1 = pxy p2) (hps : ps1.map pxy = ps2.map pxy) :
    coordMin f p1 ps1 = coordMin f p2 ps2 := by
  have hf : f = fun q => g (pxy q) := funext hfg
  have h1 : ps1.map f = (ps1.map pxy).map g := by rw [hf, List.map_map]; rfl
  have h2 : ps2.map f = (ps2.map pxy).map g := by rw [hf, List.map_map]; rfl
  rw [coordMin_eq_foldl_map, coordMin_eq_foldl_map, h1, h2, hps, hfg p1, hfg p2, hp]

theorem coordMax_congr_xy (f : Point3 → ℚ) (g : ℚ × ℚ → ℚ)
    (hfg : ∀ q, f q = g (pxy q)) (p1 p2 : Point3) (ps1 ps2 : List Point3)
    (hp : pxy p1 = pxy p2) (hps : ps1.map pxy = ps2.map pxy) :
    coordMax f p1 ps1 = coordMax f p2 ps2 := by
  have hf : f = fun q => g (pxy q) := funext hfg
  have h1 : ps1.map f = (ps1.map pxy).map g := by rw [hf, List.map_map]; rfl
  have h2 : ps2.map f = (ps2.map pxy).map g := by rw [hf, List.map_map]; rfl
  rw [coordMax_eq_foldl_map, coordMax_eq_foldl_map, h1, h2, hps, hfg p1, hfg p2, hp]

/-! ### Claim theorems -/

/-- C1: for every item type `T` registered via `BaseObject.register(T, O)`,
a subsequent `BaseObject.build(item)` on an item whose runtime type is
exactly `T` returns an instance of the handler type `O`, constructed with
that item and any keyword arguments as its wrapped item; if `T` is
registered twice, the later registration wins. -/
theorem register_build_dispatch (reg : Registry) (T : PyType) (O O1 O2 : Nat)
    (item : SceneItem) (kwargs : Kwargs) (h : item.ty = T) :
    build (register reg T O) item kwargs = some ⟨O, item, kwargs⟩ ∧
    build (register (register reg T O1) T O2) item kwargs = some ⟨O2, item, kwargs⟩ := by
  subst h
  constructor <;> simp [build, register]

theorem register_build_dispatch_witness :
    build (register emptyRegistry ⟨0, none⟩ 1) ⟨⟨0, none⟩, none, 7⟩ [] =
      some ⟨1, ⟨⟨0, none⟩, none, 7⟩, []⟩ ∧
    build (register (register emptyRegistry ⟨0, none⟩ 2) ⟨0, none⟩ 3) ⟨⟨0, none⟩, none, 7⟩ [] =
      some ⟨3, ⟨⟨0, none⟩, none, 7⟩, []⟩ := by
  have h := register_build_dispatch emptyRegistry ⟨0, none⟩ 1 2 3 ⟨⟨0, none⟩, none, 7⟩ [] rfl
  exact ⟨h.1, h.2⟩

/-- C3: `BaseObject.build(item)` succeeds if and only if the exact runtime
type of `item` has been registered; for an item whose type is an
unregistered subclass of a registered item type (or any unregistered type),
`build` raises a `KeyError` (`none`) rather than dispatching to the handler
registered for the parent type. -/
theorem build_exact_type_only (reg : Registry) (item : SceneItem) (kwargs : Kwargs) :
    ((build reg item kwargs).isSome = true ↔ (reg item.ty).isSome = true) ∧
    (∀ (T : PyType) (O : Nat), item.ty.isChildOf T → reg item.ty = none →
      reg T = some O → build reg item kwargs = none) := by
  constructor
  · simp [build]
  · intro T O hchild hmiss hreg
    simp [build, hmiss]

theorem build_exact_type_only_witness :
    build (register emptyRegistry ⟨0, none⟩ 5) ⟨⟨1, some 0⟩, none, 3⟩ [] = none :=
  (build_exact_type_only (register emptyRegistry ⟨0, none⟩ 5) ⟨⟨1, some 0⟩, none, 3⟩ []).2
    ⟨0, none⟩ 5 rfl rfl rfl

/-- C7: a scene object's `name` is an alias for the name of its wrapped
item: reading the `name` property returns the wrapped item's name, and
setting it sets the wrapped item's name while leaving the object's other
state (the identity of the item, visibility, scene) unchanged. -/
theorem name_aliases_item_name (o : BaseObjectState) (n : Option String) :
    o.name = o.item.name ∧
    (o.setName n).name = n ∧
    (o.setName n).item.name = n ∧
    (o.setName n).item.ty = o.item.ty ∧
    (o.setName n).item.payload = o.item.payload ∧
    (o.setName n).visible = o.visible ∧
    (o.setName n).scene = o.scene :=
  ⟨rfl, rfl, rfl, rfl, rfl, rfl, rfl⟩

/-- C6: the serialization round trip `Color.from_data(c.data)` yields a
color whose red, green, blue and alpha components equal those of `c`. -/
theorem color_data_roundtrip (c : Color) :
    (Color.from_data c.data).r = c.r ∧ (Color.from_data c.data).g = c.g ∧
    (Color.from_data c.data).b = c.b ∧ (Color.from_data c.data).a = c.a :=
  ⟨rfl, rfl, rfl, rfl⟩

/-- C8: `Color` equality is determined solely by the red, green and blue
components — two colors with equal `r`, `g`, `b` compare equal even when
their alpha components differ — and `len(c)` is `3`, with iteration
yielding only `r`, `g`, `b`, never alpha. -/
theorem color_eq_ignores_alpha (c1 c2 : Color) :
    (Color.eq c1 c2 = true ↔ (c1.r = c2.r ∧ c1.g = c2.g ∧ c1.b = c2.b)) ∧
    Color.len c1 = 3 ∧
    Color.toList c1 = [c1.r, c1.g, c1.b] := by
  refine ⟨?_, rfl, rfl⟩
  simp [Color.eq, Color.toList, and_assoc]

theorem color_eq_ignores_alpha_witness :
    Color.eq ⟨1, 0, 0, 1⟩ ⟨1, 0, 0, 1 / 2⟩ = true :=
  (color_eq_ignores_alpha ⟨1, 0, 0, 1⟩ ⟨1, 0, 0, 1 / 2⟩).1.mpr ⟨rfl, rfl, rfl⟩

/-- C9: `Color.lighten`, `Color.darken` and `Color.desaturate` raise
`ValueError` if and only if the factor is outside the range 0-100, and when
they raise, the color's components are left completely unchanged (the
range check precedes any mutation). -/
theorem color_adjust_range_check (c : Color) (factor : ℚ) :
    ((c.lighten factor).1.isSome = true ↔ (factor > 100 ∨ factor < 0)) ∧
    ((c.darken factor).1.isSome = true ↔ (factor > 100 ∨ factor < 0)) ∧
    ((c.desaturate factor).1.isSome = true ↔ (factor > 100 ∨ factor < 0)) ∧
    ((factor > 100 ∨ factor < 0) →
      (c.lighten factor).2 = c ∧ (c.darken factor).2 = c ∧ (c.desaturate factor).2 = c) := by
  by_cases h : factor > 100 ∨ factor < 0 <;>
    simp [Color.lighten, Color.darken, Color.desaturate, h]

theorem color_adjust_range_check_witness :
    (Color.lighten ⟨1, 0, 0, 1⟩ 150).1.isSome = true ∧
    (Color.lighten ⟨1, 0, 0, 1⟩ 150).2 = ⟨1, 0, 0, 1⟩ ∧
    (Color.darken ⟨1, 0, 0, 1⟩ 150).2 = ⟨1, 0, 0, 1⟩ ∧
    (Color.desaturate ⟨1, 0, 0, 1⟩ 150).2 = ⟨1, 0, 0, 1⟩ := by
  have h := color_adjust_range_check ⟨1, 0, 0, 1⟩ 150
  have hr : (150 : ℚ) > 100 ∨ (150 : ℚ) < 0 := by decide
  have hu := h.2.2.2 hr
  exact ⟨h.1.mpr hr, hu.1, hu.2.1, hu.2.2⟩

/-- C4: for every non-empty list of 3D points, `bounding_box` returns
exactly 8 points forming the axis-aligned box whose extents are the
componentwise minima and maxima of the input, in the fixed order
(min,min,min), (max,min,min), (max,max,min), (min,max,min), (min,min,max),
(max,min,max), (max,max,max), (min,max,max); every input point lies inside
or on the returned box (each extremum bounds the corresponding coordinate
and is attained by some input point).  The embedded function is pure, so
the input list is returned unmodified by construction. -/
theorem bounding_box_spec (p : Point3) (ps : List Point3) :
    bounding_box (p :: ps) =
      some [(coordMin (fun q => q.1) p ps, coordMin (fun q => q.2.1) p ps,
               coordMin (fun q => q.2.2) p ps),
            (coordMax (fun q => q.1) p ps, coordMin (fun q => q.2.1) p ps,
               coordMin (fun q => q.2.2) p ps),
            (coordMax (fun q => q.1) p ps, coordMax (fun q => q.2.1) p ps,
               coordMin (fun q => q.2.2) p ps),
            (coordMin (fun q => q.1) p ps, coordMax (fun q => q.2.1) p ps,
               coordMin (fun q => q.2.2) p ps),
            (coordMin (fun q => q.1) p ps, coordMin (fun q => q.2.1) p ps,
               coordMax (fun q => q.2.2) p ps),
            (coordMax (fun q => q.1) p ps, coordMin (fun q => q.2.1) p ps,
               coordMax (fun q => q.2.2) p ps),
            (coordMax (fun q => q.1) p ps, coordMax (fun q => q.2.1) p ps,
               coordMax (fun q => q.2.2) p ps),
            (coordMin (fun q => q.1) p ps, coordMax (fun q => q.2.1) p ps,
               coordMax (fun q => q.2.2) p ps)] ∧
    (∀ q ∈ p :: ps,
      coordMin (fun r => r.1) p ps ≤ q.1 ∧ q.1 ≤ coordMax (fun r => r.1) p ps ∧
      coordMin (fun r => r.2.1) p ps ≤ q.2.1 ∧ q.2.1 ≤ coordMax (fun r => r.2.1) p ps ∧
      coordMin (fun r => r.2.2) p ps ≤ q.2.2 ∧ q.2.2 ≤ coordMax (fun r => r.2.2) p ps) ∧
    (∃ q ∈ p :: ps, coordMin (fun r => r.1) p ps = q.1) ∧
    (∃ q ∈ p :: ps, coordMax (fun r => r.1) p ps = q.1) ∧
    (∃ q ∈ p :: ps, coordMin (fun r => r.2.1) p ps = q.2.1) ∧
    (∃ q ∈ p :: ps, coordMax (fun r => r.2.1) p ps = q.2.1) ∧
    (∃ q ∈ p :: ps, coordMin (fun r => r.2.2) p ps = q.2.2) ∧
    (∃ q ∈ p :: ps, coordMax (fun r => r.2.2) p ps = q.2.2) := by
  refine ⟨rfl, ?_, coordMin_attained _ p ps, coordMax_attained _ p ps,
    coordMin_attained _ p ps, coordMax_attained _ p ps,
    coordMin_attained _ p ps, coordMax_attained _ p ps⟩
  intro q hq
  exact ⟨coordMin_le _ p ps q hq, le_coordMax _ p ps q hq,
    coordMin_le _ p ps q hq, le_coordMax _ p ps q hq,
    coordMin_le _ p ps q hq, le_coordMax _ p ps q hq⟩

theorem bounding_box_spec_witness :
    bounding_box [((0 : ℚ), 0, 0), (1, 2, 3)] =
      some [(0, 0, 0), (1, 0, 0), (1, 2, 0), (0, 2, 0),
            (0, 0, 3), (1, 0, 3), (1, 2, 3), (0, 2, 3)] := by
  rw [(bounding_box_spec ((0 : ℚ), 0, 0) [(1, 2, 3)]).1]
  decide

/-- C5: `bounding_box_xy` depends only on the XY components of its input —
two non-empty point lists that agree componentwise in x and y but differ
arbitrarily in z produce the same result — and every one of the four
returned rectangle corners has third coordinate exactly `0.0`. -/
theorem bounding_box_xy_ignores_z (l1 l2 : List Point3)
    (h : l1.map pxy = l2.map pxy) (hne : l1 ≠ []) :
    bounding_box_xy l1 = bounding_box_xy l2 ∧
    ∃ corners, bounding_box_xy l1 = some corners ∧ corners.length = 4 ∧
      ∀ r ∈ corners, r.2.2 = 0 := by
  match l1, l2 with
  | [], _ => exact absurd rfl hne
  | p1 :: ps1, [] => simp at h
  | p1 :: ps1, p2 :: ps2 =>
    simp only [List.map_cons, List.cons.injEq] at h
    obtain ⟨hp, hps⟩ := h
    constructor
    · show bounding_box_xy (p1 :: ps1) = bounding_box_xy (p2 :: ps2)
      simp only [bounding_box_xy]
      rw [coordMin_congr_xy (fun q => q.1) Prod.fst (fun q => rfl) p1 p2 ps1 ps2 hp hps,
        coordMax_congr_xy (fun q => q.1) Prod.fst (fun q => rfl) p1 p2 ps1 ps2 hp hps,
        coordMin_congr_xy (fun q => q.2.1) Prod.snd (fun q => rfl) p1 p2 ps1 ps2 hp hps,
        coordMax_congr_xy (fun q => q.2.1) Prod.snd (fun q => rfl) p1 p2 ps1 ps2 hp hps]
    · refine ⟨_, rfl, rfl, ?_⟩
      intro r hr
      simp only [List.mem_cons, List.not_mem_nil, or_false] at hr
      rcases hr with h | h | h | h <;> subst h <;> rfl

theorem bounding_box_xy_ignores_z_witness :
    bounding_box_xy [((1 : ℚ), 2, 5)] = bounding_box_xy [((1 : ℚ), 2, 9)] ∧
    ∃ corners, bounding_box_xy [((1 : ℚ), 2, 5)] = some corners ∧ corners.length = 4 ∧
      ∀ r ∈ corners, r.2.2 = 0 :=
  bounding_box_xy_ignores_z [((1 : ℚ), 2, 5)] [((1 : ℚ), 2, 9)] rfl (by decide)

/-- C2: for every `ShapeObject` (whose pending-transform container is
still the deque it was initialized with), a call to `update` with a
non-null pending matrix pushes that matrix onto the front of the
pending-transform stack and applies it to the host geometry while leaving
the wrapped shape untouched, and a call to `synchronize` on a non-empty
batch applies the composite of all batched transforms — the product under
`Transform.Multiply` reduced over the stack from front to back — to the
wrapped shape and leaves the batch empty: pending transforms are
accumulated and applied to the shape lazily rather than immediately. -/
theorem shapeobject_lazy_transforms (s : ShapeObjectState) (M : Xform)
    (hM : s.matrix = some M) (hD : s.stackIsDeque = true) :
    s.update = Except.ok
      { s with stack := M :: s.stack, hostGeom := s.hostGeom.map (xapply M) } ∧
    (∀ s2, s.update = Except.ok s2 → s2.shape = s.shape) ∧
    (∀ T0 rest, s.stack = T0 :: rest →
      s.synchronize = Except.ok
        { s with shape := s.shape.map (xapply (rest.foldl xmul T0)),
                 stack := [], stackIsDeque := false }) := by
  have h1 : s.update = Except.ok
      { s with stack := M :: s.stack, hostGeom := s.hostGeom.map (xapply M) } := by
    simp [ShapeObjectState.update, hM, hD]
  refine ⟨h1, ?_, ?_⟩
  · intro s2 h2
    rw [h1] at h2
    injection h2 with h3
    rw [h3.symm]
  · intro T0 rest hst
    simp [ShapeObjectState.synchronize, hst]

theorem shapeobject_lazy_transforms_witness :
    ShapeObjectState.update ⟨some fun _ _ => 1, true, [fun _ _ => 1], [], []⟩ =
      Except.ok ⟨some fun _ _ => 1, true, [fun _ _ => 1, fun _ _ => 1], [], []⟩ ∧
    ShapeObjectState.synchronize ⟨some fun _ _ => 1, true, [fun _ _ => 1], [], []⟩ =
      Except.ok ⟨some fun _ _ => 1, false, [], [], []⟩ := by
  have h := shapeobject_lazy_transforms
    ⟨some fun _ _ => 1, true, [fun _ _ => 1], [], []⟩ (fun _ _ => 1) rfl rfl
  exact ⟨h.1, h.2.2 (fun _ _ => 1) [] rfl⟩

/-- C10: `ShapeObject.synchronize` requires a non-empty pending-transform
batch — on an empty batch it raises (`reduce` of an empty sequence with no
initial value) — and after a successful `synchronize` the batch container
is a plain list, so a subsequent `update` call with a pending matrix raises
(a list has no `appendleft`); hence from a freshly initialized object, with
or without a pending matrix set, the sequence `update`, `synchronize`,
`update` always raises at some step. -/
theorem sync_empty_raises_and_stack_degrades (s : ShapeObjectState)
    (mx : Option Xform) (shape hostGeom : List (Fin 4 → ℚ)) :
    (s.stack = [] → ∃ e, s.synchronize = Except.error e) ∧
    (∀ s2, s.synchronize = Except.ok s2 → s2.stackIsDeque = false ∧
      ∀ M, s2.matrix = some M → ∃ e, s2.update = Except.error e) ∧
    (∃ e, (({ ShapeObjectState.init shape hostGeom with matrix := mx }).update >>=
        ShapeObjectState.synchronize >>= ShapeObjectState.update) = Except.error e) := by
  obtain ⟨mx0, d0, st0, hg0, sh0⟩ := s
  refine ⟨?_, ?_, ?_⟩
  · intro h
    rcases st0 with _ | ⟨T0, rest⟩
    · exact ⟨_, rfl⟩
    · simp at h
  · intro s2 h2
    rcases st0 with _ | ⟨T0, rest⟩
    · exact absurd h2 (by simp [ShapeObjectState.synchronize])
    · have h2a : (Except.ok (⟨mx0, false, [], hg0,
          sh0.map (xapply (rest.foldl xmul T0))⟩ : ShapeObjectState) :
            Except String ShapeObjectState) = Except.ok s2 := h2
      injection h2a with h3
      rw [h3.symm]
      refine ⟨rfl, ?_⟩
      intro M hM
      have hM0 : mx0 = some M := hM
      rw [hM0]
      exact ⟨_, rfl⟩
  · cases mx with
    | none => exact ⟨_, rfl⟩
    | some M => exact ⟨_, rfl⟩

theorem sync_empty_raises_witness :
    (∃ e, ShapeObjectState.synchronize (ShapeObjectState.init [] []) = Except.error e) ∧
    (∃ e, (({ ShapeObjectState.init [] [] with matrix := some fun _ _ => 1 }).update >>=
        ShapeObjectState.synchronize >>= ShapeObjectState.update) = Except.error e) := by
  have h := sync_empty_raises_and_stack_degrades
    (ShapeObjectState.init [] []) (some fun _ _ => 1) [] []
  exact ⟨h.1 rfl, h.2.2⟩

end Compas
